import Mathlib

/-
Verification development for the diffdragon repository.

The Go sources are shallowly embedded here:
- strings are modeled as `List Char` (`Str`), with ASCII-faithful versions of
  `strings.ToLower`, `strings.Contains`, `strings.HasPrefix`, `strings.TrimSpace`,
  `strings.Split`, `strings.Fields`, `filepath.Base` and `filepath.Ext`
  (all inputs of interest are ASCII);
- the analysis engine (`analysis.go` / the analysis code shipped next to the
  Makefile: `scoreFileRiskHeuristic`, `classifySemanticGroupHeuristic`,
  `enrichRiskWithAI`, `mergeReasons`, `normalizeSemanticGroup`,
  `AnalyzeDiff`, `AnalyzeDiffHeuristics`, `AnalyzeDiffAI`) is embedded as pure
  functions; the concurrent per-file scorer calls of `enrichRiskWithAI` are
  abstracted by an explicit list of per-file outcomes (success with an
  assessment, failure with an error, or skipped after the fail-fast flag
  tripped), which covers every schedule of the worker pool because each file
  is written by exactly one worker;
- the diff parser (`git.go`: `parseDiffOutput`, `parseFileDiff`, `parseHunks`,
  `detectLanguage`, `normalizeGitDiffPath`) is embedded directly;
- the snapshot holder (`DiffHolder`) is embedded as a record, with the
  mutex flattened away (sequential abstraction of its critical sections).
-/

/-- Strings of the Go program, modeled as lists of characters. -/
abbrev Str := List Char

/-- Convert a Lean string literal to the model representation. -/
def str (s : String) : Str := s.toList

/-- ASCII case folding of one character (model of unicode.ToLower on ASCII). -/
def lowerChar (c : Char) : Char :=
  if 'A' ≤ c ∧ c ≤ 'Z' then Char.ofNat (c.toNat + 32) else c

/-- Model of Go strings.ToLower (ASCII fragment). -/
def lowerStr (s : Str) : Str := s.map lowerChar

/-- Does `needle` occur at the very start of `hay`?  Model of strings.HasPrefix. -/
def begMatch : Str → Str → Bool
  | [], _ => true
  | _ :: _, [] => false
  | c :: cs, d :: ds => c = d && begMatch cs ds

/-- Does `needle` occur anywhere in `hay`?  Model of strings.Contains. -/
def strContains : Str → Str → Bool
  | [], needle => needle.isEmpty
  | c :: t, needle => begMatch needle (c :: t) || strContains t needle

/-- Go whitespace characters (ASCII fragment of unicode.IsSpace). -/
def isSpaceChar (c : Char) : Bool :=
  c = ' ' || c = '\t' || c = '\n' || c = '\x0b' || c = '\x0c' || c = '\r'

/-- Model of Go strings.TrimSpace (ASCII fragment). -/
def trimStr (s : Str) : Str :=
  ((s.dropWhile isSpaceChar).reverse.dropWhile isSpaceChar).reverse

/-- A hunk of a file diff (git.go, DiffHunk). -/
structure DiffHunk where
  header : Str
  content : Str
  summary : Str := []
  linesAdded : Nat
  linesRemoved : Nat
deriving DecidableEq, Repr

/-- A changed file in the diff (git.go, DiffFile). -/
structure DiffFile where
  path : Str
  oldPath : Str := []
  status : Str
  language : Str := []
  hunks : List DiffHunk := []
  rawDiff : Str
  linesAdded : Nat
  linesRemoved : Nat
  riskScore : Int := 0
  riskReasons : List Str := []
  semanticGroup : Str := []
  summary : Str := []
  checklist : List Str := []
deriving DecidableEq, Repr

/-- The parsed diff result (git.go, DiffData). -/
structure DiffData where
  baseRef : Str
  headRef : Str
  files : List DiffFile
deriving DecidableEq, Repr

/-- A heuristic risk pattern (analysis code, riskPattern). -/
structure RiskPattern where
  pathContains : List Str := []
  contentContains : List Str := []
  score : Nat
  reason : Str
deriving DecidableEq, Repr

/-- The ordered heuristic pattern table (analysis code, riskPatterns). -/
def riskPatterns : List RiskPattern :=
  [ { pathContains := [str "auth", str "login", str "session", str "token", str "oauth",
        str "jwt", str "credential", str "password", str "secret"],
      score := 30, reason := str "Touches authentication/authorization code" },
    { pathContains := [str "crypto", str "encrypt", str "decrypt", str "hash", str "cert",
        str "tls", str "ssl"],
      score := 30, reason := str "Touches cryptography/security code" },
    { pathContains := [str "migration", str "schema", str "database", str "db"],
      contentContains := [str "CREATE TABLE", str "ALTER TABLE", str "DROP TABLE",
        str "CREATE INDEX", str "DROP INDEX"],
      score := 25, reason := str "Database schema or migration change" },
    { contentContains := [str "SELECT ", str "INSERT ", str "UPDATE ", str "DELETE ",
        str "exec(", str "raw(", str "rawQuery", str "execute("],
      score := 20, reason := str "Contains raw SQL or query execution" },
    { pathContains := [str "api/", str "routes", str "handler", str "controller",
        str "endpoint", str "middleware"],
      score := 20, reason := str "Modifies public API surface or middleware" },
    { pathContains := [str "permission", str "rbac", str "role", str "access",
        str "policy", str "acl"],
      score := 25, reason := str "Touches permission/access control logic" },
    { contentContains := [str "panic(", str "os.Exit", str "log.Fatal", str "process.exit"],
      score := 15, reason := str "Contains abrupt termination calls" },
    { pathContains := [str ".env", str "config", str "setting"],
      score := 15, reason := str "Configuration file change" },
    { pathContains := [str "docker", str "k8s", str "kubernetes", str "deploy", str "ci",
        str "cd", str "pipeline", str "terraform", str ".tf"],
      score := 15, reason := str "Infrastructure/deployment configuration change" },
    { pathContains := [str "payment", str "billing", str "invoice", str "stripe",
        str "subscription", str "charge"],
      score := 25, reason := str "Touches payment/billing code" } ]

/-- One pattern's match test: any path substring in the lowered path, or — only
when no path substring matched — any lowered content substring in the lowered
raw diff (analysis code, body of the pattern loop in scoreFileRisk). -/
def patternMatches (pat : RiskPattern) (pathLower contentLower : Str) : Bool :=
  if pat.pathContains.any (fun p => strContains pathLower p) then true
  else pat.contentContains.any (fun c => strContains contentLower (lowerStr c))

def largeChangeReason : Str := str "Large change (200+ lines)"
def mediumChangeReason : Str := str "Medium-large change (100+ lines)"
def moderateChangeReason : Str := str "Moderate change (50+ lines)"
def significantRemovalReason : Str := str "Significant code removal"
def removesErrorHandlingReason : Str := str "Removes error handling"

/-- The six literal markers that scoreFileRisk searches for in the lowered
diff text (analysis code, "Check for removed error handling patterns"). -/
def removesErrHandlingCheck (contentLower : Str) : Bool :=
  strContains contentLower (str "-\tif err") || strContains contentLower (str "- if err") ||
  strContains contentLower (str "-\tcatch") || strContains contentLower (str "- catch") ||
  strContains contentLower (str "-\texcept") || strContains contentLower (str "- except")

/-- Score and reasons after the pattern loop of scoreFileRisk. -/
def patternScore (pathLower contentLower : Str) : Nat × List Str :=
  riskPatterns.foldl
    (fun acc pattern =>
      if patternMatches pattern pathLower contentLower then
        (acc.1 + pattern.score, acc.2 ++ [pattern.reason])
      else acc)
    (0, [])

/-- The mutually exclusive size bonuses of scoreFileRisk. -/
def sizeBonus (file : DiffFile) (acc : Nat × List Str) : Nat × List Str :=
  let totalLines := file.linesAdded + file.linesRemoved
  if totalLines > 200 then (acc.1 + 15, acc.2 ++ [largeChangeReason])
  else if totalLines > 100 then (acc.1 + 10, acc.2 ++ [mediumChangeReason])
  else if totalLines > 50 then (acc.1 + 5, acc.2 ++ [moderateChangeReason])
  else acc

/-- The deletion-heavy penalty of scoreFileRisk. -/
def removalPenalty (file : DiffFile) (acc : Nat × List Str) : Nat × List Str :=
  if file.linesRemoved > file.linesAdded * 2 ∧ file.linesRemoved > 10 then
    (acc.1 + 10, acc.2 ++ [significantRemovalReason])
  else acc

/-- The removed-error-handling penalty of scoreFileRisk. -/
def errHandlingPenalty (contentLower : Str) (acc : Nat × List Str) : Nat × List Str :=
  if removesErrHandlingCheck contentLower then
    (acc.1 + 15, acc.2 ++ [removesErrorHandlingReason])
  else acc

/-- Score and reasons of scoreFileRisk before the removed-error-handling step. -/
def preErrRisk (file : DiffFile) : Nat × List Str :=
  removalPenalty file
    (sizeBonus file (patternScore (lowerStr file.path) (lowerStr file.rawDiff)))

/-- Score and reasons of scoreFileRisk just before the final cap at 100. -/
def preClampRisk (file : DiffFile) : Nat × List Str :=
  errHandlingPenalty (lowerStr file.rawDiff) (preErrRisk file)

/-- Model of scoreFileRisk / scoreFileRiskHeuristic (analysis code): pattern
loop, size bonus, deletion-heavy penalty, removed-error-handling penalty, cap
at 100, then write riskScore and riskReasons. -/
def scoreFileRisk (file : DiffFile) : DiffFile :=
  let pr := preClampRisk file
  { file with
    riskScore := if pr.1 > 100 then (100 : Int) else (pr.1 : Int)
    riskReasons := pr.2 }

/-- The added `auth/login.go` file of spec scenario 1, with 220 changed lines
and a raw diff containing `SELECT `. -/
def authLoginFile : DiffFile where
  path := str "auth/login.go"
  status := str "added"
  rawDiff := str "+\tSELECT id FROM users"
  linesAdded := 220
  linesRemoved := 0

example : (scoreFileRisk authLoginFile).riskScore = 65 := by decide

example : (scoreFileRisk authLoginFile).riskReasons
    = [str "Touches authentication/authorization code",
       str "Contains raw SQL or query execution", largeChangeReason] := by decide

/-- Model of Go path/filepath.Base on slash-separated paths. -/
def filepathBase (path : Str) : Str :=
  if path = [] then str "."
  else
    let p := (path.reverse.dropWhile (fun c => c = '/')).reverse
    let b := (p.reverse.takeWhile (fun c => ¬ c = '/')).reverse
    if b = [] then str "/" else b

/-- Model of Go path/filepath.Ext: the suffix starting at the final dot of the
final path element, empty when that element has no dot. -/
def filepathExt (path : Str) : Str :=
  let seg := path.reverse.takeWhile (fun c => ¬ c = '/')
  let pre := seg.takeWhile (fun c => ¬ c = '.')
  if pre.length < seg.length then '.' :: pre.reverse else []

example : filepathExt (str "auth/login.go") = str ".go" := by decide
example : filepathExt (str ".gitignore") = str ".gitignore" := by decide
example : filepathExt (str "dir.d/file") = [] := by decide
example : filepathBase (str "a/b/c.go") = str "c.go" := by decide
example : filepathBase (str "") = str "." := by decide

/-- Extensions treated as configuration (classifySemanticGroup, configExts). -/
def configExts : List Str :=
  [str ".yaml", str ".yml", str ".toml", str ".json", str ".ini",
   str ".cfg", str ".conf", str ".env", str ".tf"]

/-- Basenames treated as configuration (classifySemanticGroup, configFiles). -/
def configFiles : List Str :=
  [str "dockerfile", str "makefile", str ".gitignore", str ".dockerignore",
   str "docker-compose.yml", str "docker-compose.yaml"]

/-- Model of classifySemanticGroup / classifySemanticGroupHeuristic (analysis
code).  The only deviation: the Go code compares the addition ratio computed
in float64 against the literals 0.3 and 0.7; the model uses the exact rational
comparison 3/10 < added/(added+removed) < 7/10.  No theorem below depends on
that branch's boundary. -/
def classifySemanticGroup (file : DiffFile) : DiffFile :=
  let pathLower := lowerStr file.path
  let baseName := lowerStr (filepathBase file.path)
  if strContains pathLower (str "_test.") || strContains pathLower (str ".test.") ||
     strContains pathLower (str ".spec.") || strContains pathLower (str "test/") ||
     strContains pathLower (str "tests/") || strContains pathLower (str "__tests__/") ||
     begMatch (str "test_") baseName then
    { file with semanticGroup := str "test" }
  else
    let ext := lowerStr (filepathExt file.path)
    if ext = str ".md" || ext = str ".txt" || ext = str ".rst" || ext = str ".adoc" ||
       strContains pathLower (str "docs/") || strContains pathLower (str "doc/") ||
       baseName = str "readme" || baseName = str "changelog" || baseName = str "license" then
      { file with semanticGroup := str "docs" }
    else if ext ∈ configExts || baseName ∈ configFiles ||
        strContains pathLower (str "config/") || strContains pathLower (str ".github/") then
      { file with semanticGroup := str "config" }
    else if ext = str ".css" || ext = str ".scss" || ext = str ".less" || ext = str ".sass" then
      { file with semanticGroup := str "style" }
    else
      let contentLower := lowerStr file.rawDiff
      if strContains contentLower (str "fix") || strContains contentLower (str "bug") ||
         strContains contentLower (str "patch") || strContains contentLower (str "hotfix") then
        { file with semanticGroup := str "bugfix" }
      else if file.status = str "added" then
        { file with semanticGroup := str "feature" }
      else if file.linesAdded > 0 ∧ file.linesRemoved = 0 then
        { file with semanticGroup := str "feature" }
      else if file.linesAdded > 0 ∧ file.linesRemoved > 0 ∧
          10 * file.linesAdded > 3 * (file.linesAdded + file.linesRemoved) ∧
          10 * file.linesAdded < 7 * (file.linesAdded + file.linesRemoved) then
        { file with semanticGroup := str "refactor" }
      else
        { file with semanticGroup := str "feature" }

example : (classifySemanticGroup (scoreFileRisk authLoginFile)).semanticGroup
    = str "feature" := by decide
/-- The modified `styles/app.css` file of spec scenario 2. -/
def appCssFile : DiffFile where
  path := str "styles/app.css"
  status := str "modified"
  rawDiff := str "+a"
  linesAdded := 5
  linesRemoved := 5

example : (classifySemanticGroup appCssFile).semanticGroup = str "style" := by decide
example : (scoreFileRisk appCssFile).riskScore = 0 := by decide

/-- An AI risk assessment (ai.go, AIRiskAssessment). -/
structure AIRiskAssessment where
  riskScore : Int
  reasons : List Str
  semanticGroup : Str
  confidence : Str := []
deriving DecidableEq, Repr

/-- The seven semantic groups accepted from the external scorer
(normalizeSemanticGroup's switch cases). -/
def knownSemanticGroups : List Str :=
  [str "feature", str "bugfix", str "refactor", str "test",
   str "config", str "docs", str "style"]

/-- Model of normalizeSemanticGroup: lowercase and trim the tag, keep it only
when it is one of the seven known groups, otherwise return the empty string. -/
def normalizeSemanticGroup (group : Str) : Str :=
  let g := lowerStr (trimStr group)
  if g ∈ knownSemanticGroups then g else []

/-- The fallback notice merged into riskReasons when AI analysis fails. -/
def fallbackReason : Str := str "AI analysis unavailable; using heuristic risk"

/-- The placeholder used when a successful assessment carries no reasons. -/
def placeholderReason : Str := str "No specific risks identified"

/-- One step of mergeReasons: trim, drop empties, skip case-insensitive
duplicates.  The accumulator carries the seen lowered keys and the merged
list. -/
def addReason (acc : List Str × List Str) (reason : Str) : List Str × List Str :=
  let r := trimStr reason
  if r = [] then acc
  else if lowerStr r ∈ acc.1 then acc
  else (acc.1 ++ [lowerStr r], acc.2 ++ [r])

/-- Model of mergeReasons: fold primary then secondary through addReason and
cap the result at 6 entries. -/
def mergeReasons (primary secondary : List Str) : List Str :=
  let acc := (primary ++ secondary).foldl addReason ([], [])
  if acc.2.length > 6 then acc.2.take 6 else acc.2

example : mergeReasons [str "a", str "A", str "b"] [str "a "] = [str "a", str "b"] := by decide
example : mergeReasons [str "1", str "2", str "3", str "4", str "5", str "6"] [fallbackReason]
    = [str "1", str "2", str "3", str "4", str "5", str "6"] := by decide

/-- The outcome of one worker's per-file scorer call inside enrichRiskWithAI:
a successful assessment, a failed call carrying its error string, or a call
skipped because the fail-fast flag had already tripped. -/
inductive FileOutcome where
  | success : AIRiskAssessment → FileOutcome
  | failure : Str → FileOutcome
  | skipped : FileOutcome
deriving DecidableEq, Repr

/-- Did this outcome trip the fail-fast flag? -/
def isFailure : FileOutcome → Bool
  | .failure _ => true
  | _ => false

/-- The error string carried by a failed outcome. -/
def failureErr : FileOutcome → Option Str
  | .failure e => some e
  | _ => none

/-- What one worker does to its file (enrichRiskWithAI's goroutine body): on
success, write the clamped score, replace the reasons wholesale (placeholder
when empty) and overwrite the group only when it normalizes to a known tag;
on failure, merge the fallback notice; a skipped file is untouched. -/
def applyOutcome (f : DiffFile) (o : FileOutcome) : DiffFile :=
  match o with
  | .success a =>
      let s1 : Int := a.riskScore
      let s2 : Int := if s1 < 0 then 0 else s1
      let s3 : Int := if s2 > 100 then 100 else s2
      let reasons := if a.reasons.length > 0 then a.reasons else [placeholderReason]
      let group := normalizeSemanticGroup a.semanticGroup
      let group2 := if group ≠ [] then group else f.semanticGroup
      { f with riskScore := s3, riskReasons := reasons, semanticGroup := group2 }
  | .failure _ => { f with riskReasons := mergeReasons f.riskReasons [fallbackReason] }
  | .skipped => f

/-- The join-time fallback merge applied to every file of a failed batch. -/
def fallbackMerge (f : DiffFile) : DiffFile :=
  { f with riskReasons := mergeReasons f.riskReasons [fallbackReason] }

/-- Model of enrichRiskWithAI.  A preflight failure aborts the batch before
any per-file call: every file only has the fallback notice merged in, and the
preflight error is returned.  Otherwise each file is updated by its worker's
outcome; if any call failed, the join merges the fallback notice into every
file and the batch returns the (first) per-file error, else no error. -/
def enrichRiskWithAI (preflightErr : Option Str) (outcomes : List FileOutcome)
    (files : List DiffFile) : List DiffFile × Option Str :=
  match preflightErr with
  | some e => (files.map fallbackMerge, some e)
  | none =>
    let updated := List.zipWith applyOutcome files outcomes
    match outcomes.findSome? failureErr with
    | some e => (updated.map fallbackMerge, some e)
    | none => (updated, none)

/-- Descending-risk order used by every sort in the analysis code. -/
def riskDescOrder (a b : DiffFile) : Prop := b.riskScore ≤ a.riskScore

instance : DecidableRel riskDescOrder := fun a b => Int.decLe b.riskScore a.riskScore

instance : IsTotal DiffFile riskDescOrder :=
  ⟨fun a b => le_total b.riskScore a.riskScore⟩

instance : IsTrans DiffFile riskDescOrder :=
  ⟨fun _ _ _ hab hbc => le_trans hbc hab⟩

/-- The `sort.Slice(files, riskScore desc)` calls of AnalyzeDiff and
AnalyzeDiffAI.  sort.Slice is an unstable comparison sort; it is modeled by
insertion sort with the same comparison, which is faithful for sortedness and
for the multiset of elements but fixes one arbitrary order among ties. -/
def sortFilesByRisk (files : List DiffFile) : List DiffFile :=
  files.insertionSort riskDescOrder

/-- Model of AnalyzeDiffHeuristics: score and classify every file in place; no
sorting. -/
def AnalyzeDiffHeuristics (data : DiffData) : DiffData :=
  { data with files := data.files.map (fun f => classifySemanticGroup (scoreFileRisk f)) }

/-- Model of AnalyzeDiff(data, ai): heuristics for every file, then — when an
AI client is configured — the enrichment batch (its error discarded), then the
descending-risk sort. -/
def AnalyzeDiff (aiPresent : Bool) (preflightErr : Option Str)
    (outcomes : List FileOutcome) (data : DiffData) : DiffData :=
  let d := AnalyzeDiffHeuristics data
  let files := if aiPresent then (enrichRiskWithAI preflightErr outcomes d.files).1 else d.files
  { d with files := sortFilesByRisk files }

/-- The snapshot holder (DiffHolder), with the read-write mutex flattened
away: each method is modeled as a pure state update. -/
structure DiffHolder where
  data : Option DiffData
  aiAnalyzing : Bool := false
  aiLastError : Str := []
deriving DecidableEq, Repr

/-- Model of DiffHolder.Replace. -/
def DiffHolder.Replace (h : DiffHolder) (d : Option DiffData) : DiffHolder :=
  { h with data := d }

/-- Model of DiffHolder.SetAILastError (the Go setter trims the string). -/
def DiffHolder.SetAILastError (h : DiffHolder) (e : Str) : DiffHolder :=
  { h with aiLastError := trimStr e }

/-- Model of AnalyzeDiffAI(data, ai, holder): return unchanged when no AI
client is configured or the file list is empty; otherwise run the enrichment
batch over the (aliased) file list, record the batch error (or clear it),
sort by descending risk and replace the holder's snapshot — unconditionally,
whether or not the batch failed. -/
def AnalyzeDiffAI (aiPresent : Bool) (preflightErr : Option Str)
    (outcomes : List FileOutcome) (data : DiffData) (holder : DiffHolder) : DiffHolder :=
  if ¬ aiPresent ∨ data.files = [] then holder
  else
    let r := enrichRiskWithAI preflightErr outcomes data.files
    let h1 := match r.2 with
      | some e => holder.SetAILastError e
      | none => holder.SetAILastError []
    h1.Replace (some { data with files := sortFilesByRisk r.1 })

/-- Model of Go strings.Split for a non-empty separator: split around each
non-overlapping occurrence, scanning left to right.  (Go's special case for an
empty separator is irrelevant here; every separator used below is non-empty.) -/
def splitOnStr (sep : Str) (s : Str) : List Str :=
  match s with
  | [] => [[]]
  | c :: rest =>
    if begMatch sep (c :: rest) ∧ sep ≠ [] then
      [] :: splitOnStr sep (rest.drop (sep.length - 1))
    else
      match splitOnStr sep rest with
      | [] => [[c]]
      | p :: ps => (c :: p) :: ps
termination_by s.length
decreasing_by
  all_goals simp [List.length_drop]
  omega

/-- The newline character used to join and split diff lines. -/
def newlineChar : Char := '\n'

/-- Accumulator loop behind the model of strings.Fields. -/
def fieldsAux : Str → Str → List Str
  | [], cur => if cur = [] then [] else [cur.reverse]
  | c :: rest, cur =>
    if isSpaceChar c then
      if cur = [] then fieldsAux rest []
      else cur.reverse :: fieldsAux rest []
    else fieldsAux rest (c :: cur)

/-- Model of Go strings.Fields: the whitespace-separated words of a string. -/
def goFields (s : Str) : List Str := fieldsAux s []

example : goFields (str "diff --git a/x.go b/x.go")
    = [str "diff", str "--git", str "a/x.go", str "b/x.go"] := by decide

/-- Model of strings.Trim(token, quote): drop every leading and trailing
double-quote character. -/
def trimQuotes (s : Str) : Str :=
  ((s.dropWhile (fun c => c = '"')).reverse.dropWhile (fun c => c = '"')).reverse

/-- Model of normalizeGitDiffPath (git.go): strip surrounding quotes, keep
`/dev/null` literally, otherwise drop the leading path-prefix segment up to
and including the first slash when something follows it. -/
def normalizeGitDiffPath (token : Str) : Str :=
  let t := trimQuotes token
  if t = str "/dev/null" then t
  else
    match t.findIdx? (fun c => c = '/') with
    | some slash => if slash + 1 < t.length then t.drop (slash + 1) else t
    | none => t

example : normalizeGitDiffPath (str "a/auth/login.go") = str "auth/login.go" := by decide
example : normalizeGitDiffPath (str "/dev/null") = str "/dev/null" := by decide

/-- The extension-to-language table of detectLanguage (git.go, langMap). -/
def langMap : List (Str × Str) :=
  [(str ".go", str "go"), (str ".py", str "python"), (str ".js", str "javascript"),
   (str ".ts", str "typescript"), (str ".tsx", str "typescript"),
   (str ".jsx", str "javascript"), (str ".rs", str "rust"), (str ".rb", str "ruby"),
   (str ".java", str "java"), (str ".kt", str "kotlin"), (str ".swift", str "swift"),
   (str ".c", str "c"), (str ".cpp", str "cpp"), (str ".h", str "c"),
   (str ".cs", str "csharp"), (str ".php", str "php"), (str ".sql", str "sql"),
   (str ".sh", str "bash"), (str ".bash", str "bash"), (str ".zsh", str "bash"),
   (str ".yaml", str "yaml"), (str ".yml", str "yaml"), (str ".json", str "json"),
   (str ".toml", str "toml"), (str ".xml", str "xml"), (str ".html", str "html"),
   (str ".css", str "css"), (str ".scss", str "css"), (str ".md", str "markdown"),
   (str ".proto", str "protobuf"), (str ".tf", str "terraform"),
   (str ".dockerfile", str "dockerfile")]

/-- Model of detectLanguage (git.go): lowercased-extension lookup, then the
Dockerfile/Makefile basename fallback, else plaintext. -/
def detectLanguage (path : Str) : Str :=
  let ext := lowerStr (filepathExt path)
  match (langMap.find? (fun p => p.1 == ext)).map (fun p => p.2) with
  | some lang => lang
  | none =>
    let base := lowerStr (filepathBase path)
    if base = str "dockerfile" then str "dockerfile"
    else if base = str "makefile" then str "makefile"
    else str "plaintext"

example : detectLanguage (str "auth/login.go") = str "go" := by decide
example : detectLanguage (str "x/Dockerfile") = str "dockerfile" := by decide
example : detectLanguage (str "notes") = str "plaintext" := by decide

/-- The metadata scan of parseFileDiff (git.go): walk the lines after the
header, updating the status on `new file` / `deleted file` / `rename from` /
`Binary files` markers, and stop at the first hunk header, recording where the
diff body starts (0 when no hunk or binary marker is found). -/
def scanMeta (lines : List Str) (idx : Nat) (status : Str) : Str × Nat :=
  match lines with
  | [] => (status, 0)
  | line :: rest =>
    if begMatch (str "new file") line then scanMeta rest (idx + 1) (str "added")
    else if begMatch (str "deleted file") line then scanMeta rest (idx + 1) (str "deleted")
    else if begMatch (str "rename from") line then scanMeta rest (idx + 1) (str "renamed")
    else if begMatch (str "@@") line then (status, idx)
    else if begMatch (str "Binary files") line then (str "binary", idx)
    else scanMeta rest (idx + 1) status

/-- Accumulator loop behind parseHunks (git.go): `cur` is the hunk being
built, emitted when the next `@@` header or the end of input is reached. -/
def parseHunksAux : List Str → Option DiffHunk → List DiffHunk
  | [], cur => match cur with | some h => [h] | none => []
  | line :: rest, cur =>
    if begMatch (str "@@") line then
      (match cur with | some h => [h] | none => []) ++
        parseHunksAux rest (some { header := line, content := [],
                                   linesAdded := 0, linesRemoved := 0 })
    else
      match cur with
      | none => parseHunksAux rest none
      | some h =>
        let h1 := { h with content := h.content ++ line ++ [newlineChar] }
        let h2 :=
          if begMatch (str "+") line ∧ ¬ begMatch (str "+++") line then
            { h1 with linesAdded := h1.linesAdded + 1 }
          else if begMatch (str "-") line ∧ ¬ begMatch (str "---") line then
            { h1 with linesRemoved := h1.linesRemoved + 1 }
          else h1
        parseHunksAux rest (some h2)

/-- Model of parseHunks (git.go). -/
def parseHunks (lines : List Str) : List DiffHunk := parseHunksAux lines none

/-- Model of parseFileDiff (git.go): parse one `diff --git …` section into a
DiffFile.  Returns none only for an empty line list, which strings.Split never
produces. -/
def parseFileDiff (sec : Str) : Option DiffFile :=
  let lines := splitOnStr (str "\n") sec
  match lines with
  | [] => none
  | header :: restLines =>
    let parts := goFields header
    let pathNew := normalizeGitDiffPath (parts.getD 3 [])
    let pathOld := normalizeGitDiffPath (parts.getD 2 [])
    let path := if parts.length ≥ 4 then pathNew else []
    let oldPath := if parts.length ≥ 4 ∧ pathOld ≠ pathNew then pathOld else []
    let sm := scanMeta restLines 1 (str "modified")
    let status := sm.1
    let diffBodyStart := sm.2
    let language := detectLanguage path
    let hunkLines := lines.drop diffBodyStart
    let hunks := if diffBodyStart > 0 then parseHunks hunkLines else []
    let rawDiff := if diffBodyStart > 0 then List.intercalate (str "\n") hunkLines else []
    some { path := path, oldPath := oldPath, status := status, language := language,
           hunks := hunks, rawDiff := rawDiff,
           linesAdded := (hunks.map (fun h => h.linesAdded)).sum,
           linesRemoved := (hunks.map (fun h => h.linesRemoved)).sum }

/-- The per-file separator of git diff output. -/
def diffGitSep : Str := str "diff --git "

/-- Model of parseDiffOutput (git.go): split on the per-file separator and
collect every section that parses. -/
def parseDiffOutput (raw : Str) : List DiffFile :=
  let parts := splitOnStr diffGitSep raw
  (parts.drop 1).foldl
    (fun files part =>
      match parseFileDiff (diffGitSep ++ part) with
      | some file => files ++ [file]
      | none => files) []

/-
Helper lemmas shared by the claim theorems.
-/

/-- Every known semantic group tag is a non-empty string. -/
lemma known_group_ne_nil {g : Str} (h : g ∈ knownSemanticGroups) : g ≠ [] := by
  simp only [knownSemanticGroups, List.mem_cons, List.not_mem_nil, or_false] at h
  rcases h with rfl | rfl | rfl | rfl | rfl | rfl | rfl <;> decide

/-- Scores of interest: a DiffFile's riskScore lies in [0, 100]. -/
def scoreInRange (f : DiffFile) : Prop := 0 ≤ f.riskScore ∧ f.riskScore ≤ 100

instance : DecidablePred scoreInRange := fun _ => instDecidableAnd

/-- The heuristic scorer caps its result into [0, 100]. -/
lemma scoreFileRisk_range (f : DiffFile) : scoreInRange (scoreFileRisk f) := by
  unfold scoreInRange scoreFileRisk
  dsimp only
  split <;> constructor <;> omega

/-- The join-time fallback merge does not touch the risk score. -/
lemma fallbackMerge_riskScore (f : DiffFile) : (fallbackMerge f).riskScore = f.riskScore := rfl

/-- The join-time fallback merge does not touch the semantic group. -/
lemma fallbackMerge_semanticGroup (f : DiffFile) :
    (fallbackMerge f).semanticGroup = f.semanticGroup := rfl

/-- A worker's update keeps the score inside [0, 100]. -/
lemma applyOutcome_range {f : DiffFile} (hf : scoreInRange f) (o : FileOutcome) :
    scoreInRange (applyOutcome f o) := by
  rcases o with a | e | _
  · unfold applyOutcome scoreInRange
    dsimp only
    constructor <;> (split <;> split <;> omega)
  · exact hf
  · exact hf

/-- A member of a zipWith of applyOutcome comes from a member file and some
outcome. -/
lemma mem_zipWith_applyOutcome :
    ∀ {files : List DiffFile} {os : List FileOutcome} {g : DiffFile},
      g ∈ List.zipWith applyOutcome files os → ∃ f o, f ∈ files ∧ g = applyOutcome f o := by
  intro files
  induction files with
  | nil => intro os g h; simp at h
  | cons f fs ih =>
    intro os g h
    cases os with
    | nil => simp at h
    | cons o os2 =>
      simp only [List.zipWith_cons_cons, List.mem_cons] at h
      rcases h with rfl | h
      · exact ⟨f, o, List.mem_cons_self f fs, rfl⟩
      · rcases ih h with ⟨f2, o2, hmem, rfl⟩
        exact ⟨f2, o2, List.mem_cons_of_mem f hmem, rfl⟩

/-- Every file coming out of the enrichment batch has its score in range,
provided every file going in did. -/
lemma enrich_range {pf : Option Str} {os : List FileOutcome} {files : List DiffFile}
    (hin : ∀ g ∈ files, scoreInRange g) :
    ∀ g ∈ (enrichRiskWithAI pf os files).1, scoreInRange g := by
  intro g hg
  unfold enrichRiskWithAI at hg
  rcases pf with _ | e
  · dsimp only at hg
    rcases h2 : os.findSome? failureErr with _ | e2 <;> rw [h2] at hg <;> dsimp only at hg
    · rcases mem_zipWith_applyOutcome hg with ⟨f, o, hf, rfl⟩
      exact applyOutcome_range (hin f hf) o
    · rcases List.mem_map.mp hg with ⟨g2, hg2, rfl⟩
      rcases mem_zipWith_applyOutcome hg2 with ⟨f, o, hf, rfl⟩
      rw [scoreInRange, fallbackMerge_riskScore]
      exact applyOutcome_range (hin f hf) o
  · dsimp only at hg
    rcases List.mem_map.mp hg with ⟨f, hf, rfl⟩
    rw [scoreInRange, fallbackMerge_riskScore]
    exact hin f hf

/-- Trimming the empty string yields the empty string. -/
lemma trimStr_nil : trimStr [] = [] := rfl

/-- The sort used after analysis produces a descending-risk list. -/
lemma sortFilesByRisk_sorted (files : List DiffFile) :
    List.Pairwise riskDescOrder (sortFilesByRisk files) :=
  List.sorted_insertionSort riskDescOrder files

/-- The sort used after analysis permutes the input list. -/
lemma sortFilesByRisk_perm (files : List DiffFile) :
    (sortFilesByRisk files).Perm files :=
  List.perm_insertionSort riskDescOrder files

/-
Claim theorems.
-/

/-- classifySemanticGroup never changes a file's risk score. -/
lemma classify_riskScore (f : DiffFile) :
    (classifySemanticGroup f).riskScore = f.riskScore := by
  unfold classifySemanticGroup
  dsimp only
  repeat' split
  all_goals rfl

/-- C2: after the heuristic scoring pass, and after the enrichment pass run on
files whose scores were already in range, every FileChange's riskScore lies in
the inclusive range 0 to 100; in particular this holds for every file of any
full AnalyzeDiff run. -/
theorem claim2_riskScore_in_range :
    (∀ f, scoreInRange (scoreFileRisk f)) ∧
    (∀ (pf : Option Str) (os : List FileOutcome) (files : List DiffFile),
      (∀ g ∈ files, scoreInRange g) →
      ∀ g ∈ (enrichRiskWithAI pf os files).1, scoreInRange g) ∧
    (∀ (aiP : Bool) (pf : Option Str) (os : List FileOutcome) (data : DiffData),
      ∀ g ∈ (AnalyzeDiff aiP pf os data).files, scoreInRange g) := by
  refine ⟨scoreFileRisk_range, fun _ _ _ hin => enrich_range hin, ?_⟩
  intro aiP pf os data g hg
  have hheu : ∀ g2 ∈ (AnalyzeDiffHeuristics data).files, scoreInRange g2 := by
    intro g2 hg2
    unfold AnalyzeDiffHeuristics at hg2
    rcases List.mem_map.mp hg2 with ⟨f, _, rfl⟩
    have := scoreFileRisk_range f
    rwa [scoreInRange, ← classify_riskScore (scoreFileRisk f)] at this
  unfold AnalyzeDiff at hg
  rw [List.Perm.mem_iff (sortFilesByRisk_perm _)] at hg
  rcases aiP with _ | _
  · exact hheu g (by simpa using hg)
  · exact enrich_range hheu g (by simpa using hg)

/-- Witness for C2 at a concrete file and a concrete one-file batch. -/
theorem claim2_riskScore_in_range_witness :
    scoreInRange (scoreFileRisk authLoginFile) ∧
    (∀ g ∈ (enrichRiskWithAI none [FileOutcome.skipped] [scoreFileRisk authLoginFile]).1,
      scoreInRange g) :=
  ⟨claim2_riskScore_in_range.1 authLoginFile,
   claim2_riskScore_in_range.2.1 none [FileOutcome.skipped] [scoreFileRisk authLoginFile]
     (by decide)⟩

/-- C7: on a successful per-file assessment the worker replaces the file's
riskScore by the assessment's score clamped to [0, 100], replaces its
riskReasons wholesale (with the single placeholder when the assessment carried
none), and overwrites its semanticGroup exactly when the returned tag
normalizes (trim + lowercase) to one of the 7 known tags, keeping the
heuristic group otherwise. -/
theorem claim7_success_application (f : DiffFile) (a : AIRiskAssessment) :
    (applyOutcome f (.success a)).riskScore = max 0 (min 100 a.riskScore)
    ∧ (applyOutcome f (.success a)).riskReasons =
        (if a.reasons.length > 0 then a.reasons else [placeholderReason])
    ∧ (applyOutcome f (.success a)).semanticGroup =
        (if lowerStr (trimStr a.semanticGroup) ∈ knownSemanticGroups
         then lowerStr (trimStr a.semanticGroup) else f.semanticGroup) := by
  refine ⟨?_, rfl, ?_⟩
  · show (if (if a.riskScore < 0 then 0 else a.riskScore) > 100 then (100 : Int)
        else if a.riskScore < 0 then 0 else a.riskScore) = max 0 (min 100 a.riskScore)
    split <;> split <;> omega
  · show (if normalizeSemanticGroup a.semanticGroup ≠ [] then
        normalizeSemanticGroup a.semanticGroup else f.semanticGroup) = _
    unfold normalizeSemanticGroup
    by_cases hm : lowerStr (trimStr a.semanticGroup) ∈ knownSemanticGroups
    · simp only [hm, if_true, ne_eq, known_group_ne_nil hm, not_false_iff, if_pos]
    · simp [hm]

/-- C10: with an AI client and a non-empty file list, AnalyzeDiffAI always
ends by swapping the holder's snapshot for the batch's re-sorted file list —
also when the enrichment batch failed — and records the batch error string
(trimmed) or clears it; nothing suppresses the overwrite on error. -/
theorem claim10_holder_overwrite (pf : Option Str) (os : List FileOutcome)
    (data : DiffData) (holder : DiffHolder) (hne : data.files ≠ []) :
    (AnalyzeDiffAI true pf os data holder).data
      = some { data with files := sortFilesByRisk (enrichRiskWithAI pf os data.files).1 }
    ∧ (AnalyzeDiffAI true pf os data holder).aiLastError
      = (match (enrichRiskWithAI pf os data.files).2 with
         | some e => trimStr e
         | none => [])
    ∧ List.Pairwise riskDescOrder
        ((AnalyzeDiffAI true pf os data holder).data.elim [] (fun d => d.files)) := by
  unfold AnalyzeDiffAI
  rw [if_neg (by simp [hne])]
  rcases hE : (enrichRiskWithAI pf os data.files).2 with _ | e <;>
    simp [hE, DiffHolder.Replace, DiffHolder.SetAILastError, sortFilesByRisk_sorted,
      trimStr_nil]

/-- A one-file DiffData used to instantiate batch-level theorems. -/
def dataAuth : DiffData where
  baseRef := str "main"
  headRef := str "HEAD"
  files := [authLoginFile]

/-- An initially empty holder. -/
def holder0 : DiffHolder where
  data := none

/-- Witness for C10: a failed one-file batch still swaps the snapshot. -/
theorem claim10_holder_overwrite_witness :
    (AnalyzeDiffAI true (some (str " boom ")) [] dataAuth holder0).data
      = some { dataAuth with
               files := sortFilesByRisk
                 (enrichRiskWithAI (some (str " boom ")) [] dataAuth.files).1 }
    ∧ (AnalyzeDiffAI true (some (str " boom ")) [] dataAuth holder0).aiLastError
      = (match (enrichRiskWithAI (some (str " boom ")) [] dataAuth.files).2 with
         | some e => trimStr e
         | none => [])
    ∧ List.Pairwise riskDescOrder
        ((AnalyzeDiffAI true (some (str " boom ")) [] dataAuth holder0).data.elim []
          (fun d => d.files)) :=
  claim10_holder_overwrite (some (str " boom ")) [] dataAuth holder0 (by decide)

/-- Pointwise description of the join-time fallback merge over the zipped
worker results. -/
lemma forall2_map_zipWith (m : DiffFile → DiffFile) :
    ∀ (files : List DiffFile) (os : List FileOutcome),
      List.Forall₂ (fun g p => g = m (applyOutcome p.1 p.2))
        ((List.zipWith applyOutcome files os).map m) (files.zip os) := by
  intro files
  induction files with
  | nil => intro os; simp
  | cons f fs ih =>
    intro os
    cases os with
    | nil => simp
    | cons o os2 =>
      simp only [List.zipWith_cons_cons, List.map_cons, List.zip_cons_cons]
      exact List.Forall₂.cons rfl (ih os2)

/-- A batch with at least one failed call reports an error at the join. -/
lemma findSome_of_any_failure :
    ∀ {os : List FileOutcome}, os.any isFailure = true →
      (os.findSome? failureErr).isSome = true := by
  intro os h
  induction os with
  | nil => simp at h
  | cons o os2 ih =>
    cases o with
    | success a =>
      simp only [List.any_cons, isFailure, Bool.false_or] at h
      simpa [List.findSome?_cons, failureErr] using ih h
    | failure e => simp [List.findSome?_cons, failureErr]
    | skipped =>
      simp only [List.any_cons, isFailure, Bool.false_or] at h
      simpa [List.findSome?_cons, failureErr] using ih h

/-- C5 (amended): a preflight failure makes the batch return the preflight
error before any per-file call; every file keeps its riskScore and
semanticGroup and only has its riskReasons replaced by
mergeReasons(reasons, [fallback notice]) — which adds the notice unless the
6-entry cap drops it. -/
theorem claim5_preflight_abort (e : Str) (os : List FileOutcome) (files : List DiffFile) :
    (enrichRiskWithAI (some e) os files).2 = some e
    ∧ List.Forall₂
        (fun g f => g.riskScore = f.riskScore ∧ g.semanticGroup = f.semanticGroup
          ∧ g.riskReasons = mergeReasons f.riskReasons [fallbackReason])
        (enrichRiskWithAI (some e) os files).1 files := by
  refine ⟨rfl, ?_⟩
  show List.Forall₂ _ (files.map fallbackMerge) files
  induction files with
  | nil => simp
  | cons f fs ih =>
    simp only [List.map_cons]
    exact List.Forall₂.cons ⟨rfl, rfl, rfl⟩ ih

/-- A modified file whose path triggers seven heuristic patterns at once, so
its heuristic riskReasons list already has seven entries. -/
def multiPatternFile : DiffFile where
  path := str "auth_crypto_db_routes_role_config_docker.go"
  status := str "modified"
  rawDiff := []
  linesAdded := 0
  linesRemoved := 0

/-- Counterexample to C5 as stated: in a preflight-failed batch holding one
file with seven heuristic risk reasons, the 6-entry cap of mergeReasons drops
the fallback notice, so that file never gains it. -/
theorem claim5_counterexample :
    (scoreFileRisk multiPatternFile).riskReasons.length = 7
    ∧ ∀ g ∈ (enrichRiskWithAI (some (str "connection refused")) []
          [scoreFileRisk multiPatternFile]).1,
        fallbackReason ∉ g.riskReasons := by decide

/-- A successful worker stores the clamped assessment score. -/
lemma applyOutcome_success_score (f : DiffFile) (a : AIRiskAssessment) :
    (applyOutcome f (.success a)).riskScore = max 0 (min 100 a.riskScore) := by
  show (if (if a.riskScore < 0 then 0 else a.riskScore) > 100 then (100 : Int)
      else if a.riskScore < 0 then 0 else a.riskScore) = max 0 (min 100 a.riskScore)
  split <;> split <;> omega

/-- C6 (amended): when the preflight succeeds but at least one per-file call
fails, the batch reports an error; every result file equals its worker's
update followed by the join-time mergeReasons with the fallback notice — so
files whose calls succeeded keep their AI-derived clamped scores and groups,
and each file gains the (deduplicated) fallback notice unless the 6-entry cap
drops it. -/
theorem claim6_partial_failure (files : List DiffFile) (os : List FileOutcome)
    (hfail : os.any isFailure = true) :
    ((enrichRiskWithAI none os files).2).isSome = true
    ∧ List.Forall₂
        (fun g p => g.riskScore = (applyOutcome p.1 p.2).riskScore
          ∧ g.semanticGroup = (applyOutcome p.1 p.2).semanticGroup
          ∧ g.riskReasons = mergeReasons (applyOutcome p.1 p.2).riskReasons [fallbackReason])
        (enrichRiskWithAI none os files).1 (files.zip os)
    ∧ (∀ (f : DiffFile) (a : AIRiskAssessment),
        (applyOutcome f (.success a)).riskScore = max 0 (min 100 a.riskScore)) := by
  have hsome := findSome_of_any_failure hfail
  rcases hE : os.findSome? failureErr with _ | e
  · rw [hE] at hsome; simp at hsome
  · refine ⟨?_, ?_, applyOutcome_success_score⟩
    · show ((match os.findSome? failureErr with
        | some e2 => ((List.zipWith applyOutcome files os).map fallbackMerge, some e2)
        | none => (List.zipWith applyOutcome files os, none)) : List DiffFile × Option Str).2.isSome
          = true
      rw [hE]
      rfl
    · show List.Forall₂ _ ((match os.findSome? failureErr with
        | some e2 => ((List.zipWith applyOutcome files os).map fallbackMerge, some e2)
        | none => (List.zipWith applyOutcome files os, none)) : List DiffFile × Option Str).1
          (files.zip os)
      rw [hE]
      exact (forall2_map_zipWith fallbackMerge files os).imp
        (fun _ _ hab => by rw [hab]; exact ⟨rfl, rfl, rfl⟩)

/-- A successful assessment already carrying six distinct reasons. -/
def sixReasonAssessment : AIRiskAssessment where
  riskScore := 42
  reasons := [str "r1", str "r2", str "r3", str "r4", str "r5", str "r6"]
  semanticGroup := str "refactor"
  confidence := str "high"

/-- A two-file batch whose first call fails and whose second succeeds. -/
def batchFiles : List DiffFile := [scoreFileRisk appCssFile, scoreFileRisk authLoginFile]

/-- The outcomes of the two-file batch: one failure, one success. -/
def batchOutcomes : List FileOutcome :=
  [FileOutcome.failure (str "timeout"), FileOutcome.success sixReasonAssessment]

/-- Counterexample to C6 as stated: in this batch one call fails while the
other succeeds, yet the successful file does not carry the fallback-notice
reason after the join — its six AI reasons fill the cap and mergeReasons
drops the notice. -/
theorem claim6_counterexample :
    batchOutcomes.any isFailure = true
    ∧ (∃ g ∈ (enrichRiskWithAI none batchOutcomes batchFiles).1,
        fallbackReason ∉ g.riskReasons) := by decide

/-- Witness for C6 at the concrete two-file batch. -/
theorem claim6_partial_failure_witness :
    ((enrichRiskWithAI none batchOutcomes batchFiles).2).isSome = true
    ∧ List.Forall₂
        (fun g p => g.riskScore = (applyOutcome p.1 p.2).riskScore
          ∧ g.semanticGroup = (applyOutcome p.1 p.2).semanticGroup
          ∧ g.riskReasons = mergeReasons (applyOutcome p.1 p.2).riskReasons [fallbackReason])
        (enrichRiskWithAI none batchOutcomes batchFiles).1 (batchFiles.zip batchOutcomes)
    ∧ (∀ (f : DiffFile) (a : AIRiskAssessment),
        (applyOutcome f (.success a)).riskScore = max 0 (min 100 a.riskScore)) :=
  claim6_partial_failure batchFiles batchOutcomes (by decide)

/-- classifySemanticGroup never changes a file's path. -/
lemma classify_path (f : DiffFile) : (classifySemanticGroup f).path = f.path := by
  unfold classifySemanticGroup
  dsimp only
  repeat' split
  all_goals rfl

/-- The heuristic pass keeps every file's path at its original position. -/
lemma analyzeDiffHeuristics_paths (data : DiffData) :
    (AnalyzeDiffHeuristics data).files.map (fun f => f.path)
      = data.files.map (fun f => f.path) := by
  unfold AnalyzeDiffHeuristics
  dsimp only
  rw [List.map_map]
  refine List.map_congr_left (fun f _ => ?_)
  exact classify_path (scoreFileRisk f)

/-- A plain modified file that matches no heuristic pattern (score 0). -/
def plainFile : DiffFile where
  path := str "a.go"
  status := str "modified"
  rawDiff := str "+x"
  linesAdded := 1
  linesRemoved := 0

/-- A modified file under an auth path (heuristic score 30). -/
def authFile : DiffFile where
  path := str "auth.go"
  status := str "modified"
  rawDiff := str "+x"
  linesAdded := 1
  linesRemoved := 0

/-- A parse result whose low-risk file precedes its high-risk file. -/
def unsortedData : DiffData where
  baseRef := str "main"
  headRef := str "HEAD"
  files := [plainFile, authFile]

/-- Counterexample to C3 as stated: the synchronous heuristic pass
(AnalyzeDiffHeuristics) performs no sort, so after it this two-file list is
not in descending riskScore order (scores 0 then 30). -/
theorem claim3_counterexample :
    ¬ List.Pairwise riskDescOrder (AnalyzeDiffHeuristics unsortedData).files := by decide

/-- C3 (amended): AnalyzeDiff always leaves Files sorted by riskScore in
non-increasing order and only permutes the analyzed list, while the fast
heuristic pass AnalyzeDiffHeuristics performs no sorting at all — it keeps
every file at its original position.  (Tie order after the sort is not
specified: the Go code sorts with the unstable sort.Slice.) -/
theorem claim3_sorting (aiP : Bool) (pf : Option Str) (os : List FileOutcome)
    (data : DiffData) :
    List.Pairwise riskDescOrder (AnalyzeDiff aiP pf os data).files
    ∧ (AnalyzeDiff aiP pf os data).files.Perm
        (if aiP then (enrichRiskWithAI pf os (AnalyzeDiffHeuristics data).files).1
         else (AnalyzeDiffHeuristics data).files)
    ∧ (AnalyzeDiffHeuristics data).files.map (fun f => f.path)
        = data.files.map (fun f => f.path)
    ∧ (AnalyzeDiffHeuristics data).files.length = data.files.length := by
  refine ⟨?_, ?_, analyzeDiffHeuristics_paths data, ?_⟩
  · exact sortFilesByRisk_sorted _
  · show (sortFilesByRisk (if aiP then _ else _)).Perm _
    exact sortFilesByRisk_perm _
  · unfold AnalyzeDiffHeuristics
    simp

/-- C1: any added FileChange at path auth/login.go with 220 changed lines
whose raw diff contains `SELECT ` but triggers no other content pattern, no
removed-error-handling marker, no deletion-heavy penalty and no bugfix
keyword scores exactly 65 = 30 (auth path) + 20 (raw SQL) + 15 (large
change), with exactly those three reasons in table order, and classifies as
feature.  (Containment hypotheses are stated against the lowercased diff
text, as the code compares them.) -/
theorem claim1_auth_login_scenario (f : DiffFile)
    (hpath : f.path = str "auth/login.go")
    (hstatus : f.status = str "added")
    (hlines : f.linesAdded + f.linesRemoved = 220)
    (hsql : strContains (lowerStr f.rawDiff) (lowerStr (str "SELECT ")) = true)
    (hct : strContains (lowerStr f.rawDiff) (lowerStr (str "CREATE TABLE")) = false)
    (hat : strContains (lowerStr f.rawDiff) (lowerStr (str "ALTER TABLE")) = false)
    (hdt : strContains (lowerStr f.rawDiff) (lowerStr (str "DROP TABLE")) = false)
    (hcix : strContains (lowerStr f.rawDiff) (lowerStr (str "CREATE INDEX")) = false)
    (hdix : strContains (lowerStr f.rawDiff) (lowerStr (str "DROP INDEX")) = false)
    (hpanic : strContains (lowerStr f.rawDiff) (lowerStr (str "panic(")) = false)
    (hexit : strContains (lowerStr f.rawDiff) (lowerStr (str "os.Exit")) = false)
    (hfatal : strContains (lowerStr f.rawDiff) (lowerStr (str "log.Fatal")) = false)
    (hpexit : strContains (lowerStr f.rawDiff) (lowerStr (str "process.exit")) = false)
    (hie1 : strContains (lowerStr f.rawDiff) (str "-\tif err") = false)
    (hie2 : strContains (lowerStr f.rawDiff) (str "- if err") = false)
    (hca1 : strContains (lowerStr f.rawDiff) (str "-\tcatch") = false)
    (hca2 : strContains (lowerStr f.rawDiff) (str "- catch") = false)
    (hex1 : strContains (lowerStr f.rawDiff) (str "-\texcept") = false)
    (hex2 : strContains (lowerStr f.rawDiff) (str "- except") = false)
    (hnofix : strContains (lowerStr f.rawDiff) (str "fix") = false)
    (hnobug : strContains (lowerStr f.rawDiff) (str "bug") = false)
    (hnopatch : strContains (lowerStr f.rawDiff) (str "patch") = false)
    (hnohot : strContains (lowerStr f.rawDiff) (str "hotfix") = false)
    (hnorem : ¬ (f.linesRemoved > f.linesAdded * 2 ∧ f.linesRemoved > 10)) :
    (scoreFileRisk f).riskScore = 65
    ∧ (scoreFileRisk f).riskReasons
        = [str "Touches authentication/authorization code",
           str "Contains raw SQL or query execution", largeChangeReason]
    ∧ (classifySemanticGroup (scoreFileRisk f)).semanticGroup = str "feature" := by
  have hplow : lowerStr (str "auth/login.go") = str "auth/login.go" := by decide
  have key : patternScore (lowerStr f.path) (lowerStr f.rawDiff)
      = (50, [str "Touches authentication/authorization code",
              str "Contains raw SQL or query execution"]) := by
    rw [hpath, hplow]
    have m1 : patternMatches
        { pathContains := [str "auth", str "login", str "session", str "token", str "oauth",
            str "jwt", str "credential", str "password", str "secret"],
          score := 30, reason := str "Touches authentication/authorization code" }
        (str "auth/login.go") (lowerStr f.rawDiff) = true := by
      unfold patternMatches
      split
      · rfl
      · next hcond => exact absurd (by decide) hcond
    have m2 : patternMatches
        { pathContains := [str "crypto", str "encrypt", str "decrypt", str "hash", str "cert",
            str "tls", str "ssl"],
          score := 30, reason := str "Touches cryptography/security code" }
        (str "auth/login.go") (lowerStr f.rawDiff) = false := by
      unfold patternMatches
      split
      · next hcond => exact absurd hcond (by decide)
      · rfl
    have m3 : patternMatches
        { pathContains := [str "migration", str "schema", str "database", str "db"],
          contentContains := [str "CREATE TABLE", str "ALTER TABLE", str "DROP TABLE",
            str "CREATE INDEX", str "DROP INDEX"],
          score := 25, reason := str "Database schema or migration change" }
        (str "auth/login.go") (lowerStr f.rawDiff) = false := by
      unfold patternMatches
      split
      · next hcond => exact absurd hcond (by decide)
      · simp [hct, hat, hdt, hcix, hdix]
    have m4 : patternMatches
        { contentContains := [str "SELECT ", str "INSERT ", str "UPDATE ", str "DELETE ",
            str "exec(", str "raw(", str "rawQuery", str "execute("],
          score := 20, reason := str "Contains raw SQL or query execution" }
        (str "auth/login.go") (lowerStr f.rawDiff) = true := by
      unfold patternMatches
      split
      · rfl
      · simp [hsql]
    have m5 : patternMatches
        { pathContains := [str "api/", str "routes", str "handler", str "controller",
            str "endpoint", str "middleware"],
          score := 20, reason := str "Modifies public API surface or middleware" }
        (str "auth/login.go") (lowerStr f.rawDiff) = false := by
      unfold patternMatches
      split
      · next hcond => exact absurd hcond (by decide)
      · rfl
    have m6 : patternMatches
        { pathContains := [str "permission", str "rbac", str "role", str "access",
            str "policy", str "acl"],
          score := 25, reason := str "Touches permission/access control logic" }
        (str "auth/login.go") (lowerStr f.rawDiff) = false := by
      unfold patternMatches
      split
      · next hcond => exact absurd hcond (by decide)
      · rfl
    have m7 : patternMatches
        { contentContains := [str "panic(", str "os.Exit", str "log.Fatal", str "process.exit"],
          score := 15, reason := str "Contains abrupt termination calls" }
        (str "auth/login.go") (lowerStr f.rawDiff) = false := by
      unfold patternMatches
      split
      · next hcond => exact absurd hcond (by decide)
      · simp [hpanic, hexit, hfatal, hpexit]
    have m8 : patternMatches
        { pathContains := [str ".env", str "config", str "setting"],
          score := 15, reason := str "Configuration file change" }
        (str "auth/login.go") (lowerStr f.rawDiff) = false := by
      unfold patternMatches
      split
      · next hcond => exact absurd hcond (by decide)
      · rfl
    have m9 : patternMatches
        { pathContains := [str "docker", str "k8s", str "kubernetes", str "deploy", str "ci",
            str "cd", str "pipeline", str "terraform", str ".tf"],
          score := 15, reason := str "Infrastructure/deployment configuration change" }
        (str "auth/login.go") (lowerStr f.rawDiff) = false := by
      unfold patternMatches
      split
      · next hcond => exact absurd hcond (by decide)
      · rfl
    have m10 : patternMatches
        { pathContains := [str "payment", str "billing", str "invoice", str "stripe",
            str "subscription", str "charge"],
          score := 25, reason := str "Touches payment/billing code" }
        (str "auth/login.go") (lowerStr f.rawDiff) = false := by
      unfold patternMatches
      split
      · next hcond => exact absurd hcond (by decide)
      · rfl
    simp [patternScore, riskPatterns, m1, m2, m3, m4, m5, m6, m7, m8, m9, m10]
  have herr : removesErrHandlingCheck (lowerStr f.rawDiff) = false := by
    unfold removesErrHandlingCheck
    rw [hie1, hie2, hca1, hca2, hex1, hex2]
    rfl
  have hval : preClampRisk f
      = (65, [str "Touches authentication/authorization code",
              str "Contains raw SQL or query execution", largeChangeReason]) := by
    unfold preClampRisk preErrRisk
    rw [key]
    rw [show sizeBonus f (50, [str "Touches authentication/authorization code",
        str "Contains raw SQL or query execution"])
      = (65, [str "Touches authentication/authorization code",
              str "Contains raw SQL or query execution", largeChangeReason]) from by
        simp [sizeBonus, hlines]]
    rw [show removalPenalty f (65, [str "Touches authentication/authorization code",
        str "Contains raw SQL or query execution", largeChangeReason])
      = (65, [str "Touches authentication/authorization code",
              str "Contains raw SQL or query execution", largeChangeReason]) from by
        simp [removalPenalty, hnorem]]
    simp [errHandlingPenalty, herr]
  refine ⟨?_, ?_, ?_⟩
  · show (if (preClampRisk f).1 > 100 then (100 : Int) else ((preClampRisk f).1 : Int)) = 65
    rw [hval]
    rfl
  · show (preClampRisk f).2 = _
    rw [hval]
  · unfold classifySemanticGroup
    have e1 : (scoreFileRisk f).path = f.path := rfl
    have e2 : (scoreFileRisk f).rawDiff = f.rawDiff := rfl
    have e3 : (scoreFileRisk f).status = f.status := rfl
    rw [e1, e2, e3, hpath, hplow]
    rw [if_neg (by decide)]
    rw [if_neg (by decide)]
    rw [if_neg (by decide)]
    rw [if_neg (by decide)]
    rw [if_neg (by simp [hnofix, hnobug, hnopatch, hnohot])]
    rw [if_pos (by rw [hstatus])]

/-- Witness for C1 at the concrete scenario file. -/
theorem claim1_auth_login_scenario_witness :
    (scoreFileRisk authLoginFile).riskScore = 65
    ∧ (scoreFileRisk authLoginFile).riskReasons
        = [str "Touches authentication/authorization code",
           str "Contains raw SQL or query execution", largeChangeReason]
    ∧ (classifySemanticGroup (scoreFileRisk authLoginFile)).semanticGroup = str "feature" :=
  claim1_auth_login_scenario authLoginFile (by decide) (by decide) (by decide) (by decide)
    (by decide) (by decide) (by decide) (by decide) (by decide) (by decide) (by decide)
    (by decide) (by decide) (by decide) (by decide) (by decide) (by decide) (by decide)
    (by decide) (by decide) (by decide) (by decide) (by decide) (by decide)

/-- The pattern loop appends exactly the reasons of the matched patterns, in
table order. -/
lemma patternScore_foldl_snd (pl cl : Str) :
    ∀ (pats : List RiskPattern) (acc : Nat × List Str),
      (pats.foldl
        (fun acc pattern =>
          if patternMatches pattern pl cl then
            (acc.1 + pattern.score, acc.2 ++ [pattern.reason])
          else acc) acc).2
      = acc.2 ++ (pats.filter (fun p => patternMatches p pl cl)).map (fun p => p.reason) := by
  intro pats
  induction pats with
  | nil => intro acc; simp
  | cons p ps ih =>
    intro acc
    by_cases hm : patternMatches p pl cl
    · simp only [List.foldl_cons, hm, if_true, List.filter_cons_of_pos, List.map_cons, ih]
      simp
    · simp only [List.foldl_cons, hm, if_false, List.filter_cons_of_neg, ih]
      simp [hm]

/-- The reasons produced by the pattern loop. -/
lemma patternScore_snd (pl cl : Str) :
    (patternScore pl cl).2
      = (riskPatterns.filter (fun p => patternMatches p pl cl)).map (fun p => p.reason) := by
  unfold patternScore
  rw [patternScore_foldl_snd]
  rfl

/-- The reasons appended by the size-bonus step. -/
lemma sizeBonus_snd (f : DiffFile) (acc : Nat × List Str) :
    (sizeBonus f acc).2 = acc.2 ++
      (if f.linesAdded + f.linesRemoved > 200 then [largeChangeReason]
       else if f.linesAdded + f.linesRemoved > 100 then [mediumChangeReason]
       else if f.linesAdded + f.linesRemoved > 50 then [moderateChangeReason]
       else []) := by
  unfold sizeBonus
  dsimp only
  repeat' split
  all_goals simp

/-- The reasons appended by the deletion-heavy step. -/
lemma removalPenalty_snd (f : DiffFile) (acc : Nat × List Str) :
    (removalPenalty f acc).2 = acc.2 ++
      (if f.linesRemoved > f.linesAdded * 2 ∧ f.linesRemoved > 10
       then [significantRemovalReason] else []) := by
  unfold removalPenalty
  split
  all_goals simp

/-- The reasons appended by the removed-error-handling step. -/
lemma errHandlingPenalty_snd (cl : Str) (acc : Nat × List Str) :
    (errHandlingPenalty cl acc).2 = acc.2 ++
      (if removesErrHandlingCheck cl then [removesErrorHandlingReason] else []) := by
  unfold errHandlingPenalty
  split
  all_goals simp [*]

/-- Every reason the heuristic scorer can emit, in emission order. -/
def masterReasons : List Str :=
  riskPatterns.map (fun p => p.reason)
    ++ [largeChangeReason, mediumChangeReason, moderateChangeReason]
    ++ [significantRemovalReason]
    ++ [removesErrorHandlingReason]

/-- The heuristic reasons list is a subsequence of the master reason list. -/
lemma preClampRisk_sublist (f : DiffFile) :
    List.Sublist (preClampRisk f).2 masterReasons := by
  unfold preClampRisk preErrRisk masterReasons
  rw [errHandlingPenalty_snd, removalPenalty_snd, sizeBonus_snd, patternScore_snd]
  refine List.Sublist.append (List.Sublist.append (List.Sublist.append ?_ ?_) ?_) ?_
  · exact (List.filter_sublist _).map _
  · repeat' split
    all_goals decide
  · split
    all_goals decide
  · split
    all_goals decide

/-- No two of the fifteen master reasons agree up to case. -/
lemma masterReasons_pairwise :
    masterReasons.Pairwise (fun a b => lowerStr a ≠ lowerStr b) := by decide

/-- The invariant addReason maintains: the seen-key list is exactly the
lowered merged list, and the seen keys are pairwise distinct. -/
def mergeInv (acc : List Str × List Str) : Prop :=
  acc.1 = acc.2.map (fun r => lowerStr r) ∧ acc.1.Pairwise Ne

/-- One addReason step preserves the invariant. -/
lemma addReason_inv {acc : List Str × List Str} (h : mergeInv acc) (r : Str) :
    mergeInv (addReason acc r) := by
  unfold addReason
  dsimp only
  split
  · exact h
  · split
    · exact h
    · next hnew =>
      refine ⟨by simp [h.1], ?_⟩
      rw [List.pairwise_append]
      refine ⟨h.2, List.pairwise_singleton _ _, ?_⟩
      intro a ha b hb
      simp only [List.mem_singleton] at hb
      subst hb
      intro hab
      exact hnew (hab ▸ ha)

/-- The addReason fold preserves the invariant. -/
lemma foldl_addReason_inv :
    ∀ (rs : List Str) (acc : List Str × List Str), mergeInv acc →
      mergeInv (rs.foldl addReason acc) := by
  intro rs
  induction rs with
  | nil => intro acc h; exact h
  | cons r rs2 ih => intro acc h; exact ih _ (addReason_inv h r)

/-- mergeReasons output has no two entries equal up to lowercasing. -/
lemma mergeReasons_pairwise (ps ss : List Str) :
    (mergeReasons ps ss).Pairwise (fun a b => lowerStr a ≠ lowerStr b) := by
  unfold mergeReasons
  dsimp only
  have hinv := foldl_addReason_inv (ps ++ ss) ([], []) ⟨rfl, List.Pairwise.nil⟩
  have hp : ((ps ++ ss).foldl addReason ([], [])).2.Pairwise
      (fun a b => lowerStr a ≠ lowerStr b) := by
    have := hinv.2
    rw [hinv.1, List.pairwise_map] at this
    exact this
  split
  · exact hp.sublist (List.take_sublist _ _)
  · exact hp

/-- mergeReasons output never exceeds six entries. -/
lemma mergeReasons_length (ps ss : List Str) : (mergeReasons ps ss).length ≤ 6 := by
  unfold mergeReasons
  dsimp only
  split
  · simp [List.length_take]
  · omega

/-- C4 (amended): the heuristic pass emits riskReasons with no two entries
equal ignoring case (they are drawn in order from fifteen pairwise
case-distinct constants), and every riskReasons list built by mergeReasons —
the enrichment path — is case-insensitively deduplicated and capped at 6
entries.  The heuristic pass itself enforces no cap (see the
counterexample). -/
theorem claim4_reasons_dedup_cap :
    (∀ f : DiffFile, (scoreFileRisk f).riskReasons.Pairwise
      (fun a b => lowerStr a ≠ lowerStr b))
    ∧ (∀ ps ss : List Str,
        (mergeReasons ps ss).Pairwise (fun a b => lowerStr a ≠ lowerStr b)
        ∧ (mergeReasons ps ss).length ≤ 6) :=
  ⟨fun f => masterReasons_pairwise.sublist (preClampRisk_sublist f),
   fun ps ss => ⟨mergeReasons_pairwise ps ss, mergeReasons_length ps ss⟩⟩

/-- Counterexample to C4 as stated: this file's heuristic pass emits seven
risk reasons, exceeding the claimed 6-entry bound. -/
theorem claim4_counterexample :
    (scoreFileRisk multiPatternFile).riskReasons.length = 7
    ∧ ¬ (scoreFileRisk multiPatternFile).riskReasons.length ≤ 6 := by decide

/-- The pattern loop never emits the removed-error-handling reason. -/
lemma patternScore_count_errReason (pl cl : Str) :
    ((patternScore pl cl).2).count removesErrorHandlingReason = 0 := by
  rw [patternScore_snd]
  have hs : List.Sublist
      ((riskPatterns.filter (fun p => patternMatches p pl cl)).map (fun p => p.reason))
      (riskPatterns.map (fun p => p.reason)) :=
    (List.filter_sublist _).map _
  have h0 : (riskPatterns.map (fun p => p.reason)).count removesErrorHandlingReason = 0 := by
    decide
  exact Nat.le_zero.mp (h0 ▸ hs.count_le removesErrorHandlingReason)

/-- C9 (amended): the heuristic scorer adds the +15 removed-error-handling
penalty, with its reason emitted exactly once, precisely when the lowercased
diff text contains one of the six literal markers `- if err`, tab variant,
`- catch`, tab variant, `- except`, tab variant — a `-` followed by exactly
one space or tab and the keyword, anywhere in the text, not only at the start
of a removed line. -/
theorem claim9_removed_error_handling (f : DiffFile) :
    ((scoreFileRisk f).riskReasons.count removesErrorHandlingReason
      = if removesErrHandlingCheck (lowerStr f.rawDiff) then 1 else 0)
    ∧ (removesErrorHandlingReason ∈ (scoreFileRisk f).riskReasons
        ↔ removesErrHandlingCheck (lowerStr f.rawDiff) = true)
    ∧ ((preClampRisk f).1 = (preErrRisk f).1
        + (if removesErrHandlingCheck (lowerStr f.rawDiff) then 15 else 0)) := by
  have hcount : (scoreFileRisk f).riskReasons.count removesErrorHandlingReason
      = if removesErrHandlingCheck (lowerStr f.rawDiff) then 1 else 0 := by
    show ((preClampRisk f).2).count removesErrorHandlingReason = _
    unfold preClampRisk preErrRisk
    rw [errHandlingPenalty_snd, removalPenalty_snd, sizeBonus_snd]
    rw [List.count_append, List.count_append, List.count_append]
    rw [patternScore_count_errReason]
    have c2 : (if f.linesAdded + f.linesRemoved > 200 then [largeChangeReason]
        else if f.linesAdded + f.linesRemoved > 100 then [mediumChangeReason]
        else if f.linesAdded + f.linesRemoved > 50 then [moderateChangeReason]
        else []).count removesErrorHandlingReason = 0 := by
      repeat' split
      all_goals decide
    have c3 : (if f.linesRemoved > f.linesAdded * 2 ∧ f.linesRemoved > 10
        then [significantRemovalReason] else []).count removesErrorHandlingReason = 0 := by
      split
      all_goals decide
    have c4 : (if removesErrHandlingCheck (lowerStr f.rawDiff)
        then [removesErrorHandlingReason] else []).count removesErrorHandlingReason
        = if removesErrHandlingCheck (lowerStr f.rawDiff) then 1 else 0 := by
      split
      all_goals decide
    rw [c2, c3, c4]
    omega
  refine ⟨hcount, ?_, ?_⟩
  · constructor
    · intro hm
      by_contra hc
      rw [Bool.not_eq_true] at hc
      rw [hc, if_neg (by simp)] at hcount
      exact (List.count_eq_zero.mp hcount) hm
    · intro hc
      rw [hc, if_pos rfl] at hcount
      exact List.count_pos_iff.mp (by omega)
  · unfold preClampRisk errHandlingPenalty
    split
    all_goals simp [*]

/-- Split a string at newline characters (structural single-character split,
agreeing with strings.Split(s, newline)). -/
def splitLines : Str → List Str
  | [] => [[]]
  | c :: rest =>
    if c = newlineChar then [] :: splitLines rest
    else
      match splitLines rest with
      | [] => [[c]]
      | p :: ps => (c :: p) :: ps

/-- The added/removed-line predicate exactly as claim C9 words it (reference
definition from the claim, to compare with the code's check): some line of
the diff starts with `-` and, after optional leading spaces or tabs, one of
the keywords. -/
def specRemovedErrLine (raw : Str) : Bool :=
  (splitLines raw).any (fun line =>
    begMatch (str "-") line &&
    (let body := (line.drop 1).dropWhile (fun c => c = ' ' || c = '\t')
     begMatch (str "if err") body || begMatch (str "catch") body ||
       begMatch (str "except") body))

/-- A removed `if err` line with no space after the minus sign. -/
def errLineFile : DiffFile where
  path := str "main.go"
  status := str "modified"
  rawDiff := str "-if err != nil"
  linesAdded := 1
  linesRemoved := 1

/-- Counterexample to C9 as stated: this diff removes a line beginning with
`if err` (zero leading whitespace), yet the scorer adds no penalty and no
reason, because its check requires exactly one space or tab between `-` and
the keyword. -/
theorem claim9_counterexample :
    specRemovedErrLine errLineFile.rawDiff = true
    ∧ (scoreFileRisk errLineFile).riskScore = 0
    ∧ removesErrorHandlingReason ∉ (scoreFileRisk errLineFile).riskReasons := by decide

/-- strings.Split never yields an empty list of parts. -/
lemma splitOnStr_ne_nil (sep s : Str) : splitOnStr sep s ≠ [] := by
  unfold splitOnStr
  split
  · simp
  · split
    · simp
    · split
      all_goals simp

/-- A string not containing the separator splits into itself alone. -/
lemma splitOnStr_of_not_contains {sep : Str} :
    ∀ {s : Str}, strContains s sep = false → splitOnStr sep s = [s] := by
  intro s
  induction s with
  | nil =>
    intro _
    rw [splitOnStr]
  | cons c rest ih =>
    intro h
    rw [strContains] at h
    rw [Bool.or_eq_false_iff] at h
    rw [splitOnStr]
    rw [if_neg (by simp [h.1])]
    rw [ih h.2]

/-- parseFileDiff succeeds on every section: the only nil return in the Go
code needs an empty line list, which strings.Split never produces. -/
lemma parseFileDiff_isSome (sec : Str) : ∃ file, parseFileDiff sec = some file := by
  unfold parseFileDiff
  rcases h : splitOnStr (str "\n") sec with _ | ⟨hd, tl⟩
  · exact absurd h (splitOnStr_ne_nil _ _)
  · exact ⟨_, rfl⟩

/-- The collection loop of parseDiffOutput keeps every section: one DiffFile
per part. -/
lemma parseDiffOutput_foldl_length :
    ∀ (parts : List Str) (acc : List DiffFile),
      (parts.foldl
        (fun files part =>
          match parseFileDiff (diffGitSep ++ part) with
          | some file => files ++ [file]
          | none => files) acc).length = acc.length + parts.length := by
  intro parts
  induction parts with
  | nil => intro acc; simp
  | cons part rest ih =>
    intro acc
    rcases parseFileDiff_isSome (diffGitSep ++ part) with ⟨file, hf⟩
    rw [List.foldl_cons, hf, ih]
    simp
    omega

/-- C8: the diff parser is total — it returns one FileChange per
`diff --git ` section of any input string, never an error, and an input with
no such section (zero parseable file segments) yields the empty list. -/
theorem claim8_parser_total (raw : Str) :
    (parseDiffOutput raw).length = (splitOnStr diffGitSep raw).length - 1
    ∧ (strContains raw diffGitSep = false → parseDiffOutput raw = []) := by
  constructor
  · unfold parseDiffOutput
    rw [parseDiffOutput_foldl_length]
    simp [List.length_drop]
  · intro h
    unfold parseDiffOutput
    rw [splitOnStr_of_not_contains h]
    rfl

/-- Witness for C8: an input without any diff header parses to no files. -/
theorem claim8_parser_total_witness :
    strContains (str "hello") diffGitSep = false ∧ parseDiffOutput (str "hello") = [] :=
  ⟨by decide, (claim8_parser_total (str "hello")).2 (by decide)⟩
